import Mathlib

/-!
Shallow embedding of `src/src/encoder_driver.py` (class `EncoderDriver`).

The encoder driver keeps per-instance state set up in `__init__`:
  - `self.period = 2**16 - 1`  (the timer period, 65535)
  - `self.delta_val = 0`, `self.last_tick = 0`, `self.new_tick = 0`,
    `self.true_position = 0`.

`read(self)` samples `self.timer.counter()` (an external input, modelled
here as the explicit argument `counter`), shifts `new_tick` to `last_tick`,
computes the signed difference, applies the wrap correction against
`0.5*self.period`, accumulates into `true_position` and returns it.
`zero(self)` sets `true_position = 0` and touches nothing else.

Python integers are unbounded, so all numeric fields are `Int`.  The source
compares the integer `delta_val` against the float `0.5*self.period`; for
every integer period `p` with `|p| < 2^53` (in particular the fixed
`p = 65535`, where `0.5*p = 32767.5` is exact in binary64), the Python
comparison `delta_val > 0.5*p` is mathematically exact and equivalent to
`2*delta_val > p`, which is how it is rendered below (likewise for the
`<` branch).
-/

structure EncoderDriver where
  period : Int
  delta_val : Int
  last_tick : Int
  new_tick : Int
  true_position : Int
  deriving Repr, DecidableEq

namespace EncoderDriver

/-- The encoder-state part of `EncoderDriver.__init__`: `period` is set to
`2**16 - 1` and all bookkeeping variables start at 0 (pin and timer setup is
external I/O and carries no algorithmic state). -/
def init : EncoderDriver :=
  { period := 2 ^ 16 - 1
    delta_val := 0
    last_tick := 0
    new_tick := 0
    true_position := 0 }

/-- `EncoderDriver.read`, with the value returned by `self.timer.counter()`
passed in as `counter`.  Returns the updated state together with the value
returned by the Python method (`self.true_position`). -/
def read (s : EncoderDriver) (counter : Int) : EncoderDriver × Int :=
  -- self.last_tick = self.new_tick
  let last_tick := s.new_tick
  -- self.new_tick = self.timer.counter()
  let new_tick := counter
  -- self.delta_val = self.new_tick - self.last_tick
  let delta_val := new_tick - last_tick
  -- if (self.delta_val > 0.5*self.period): self.delta_val -= self.period
  -- elif (self.delta_val < -0.5*self.period): self.delta_val += self.period
  let delta_val :=
    if 2 * delta_val > s.period then delta_val - s.period
    else if 2 * delta_val < -s.period then delta_val + s.period
    else delta_val
  -- self.true_position += self.delta_val
  let true_position := s.true_position + delta_val
  ({ s with last_tick := last_tick
            new_tick := new_tick
            delta_val := delta_val
            true_position := true_position },
   true_position)

/-- `EncoderDriver.zero`: `self.true_position = 0`. -/
def zero (s : EncoderDriver) : EncoderDriver :=
  { s with true_position := 0 }

/-- Folds `read` over a list of successive raw counter readings, keeping only
the final state. -/
def readAll (s : EncoderDriver) : List Int → EncoderDriver
  | [] => s
  | r :: rs => ((s.read r).1).readAll rs

end EncoderDriver

/-- The plain sum of the consecutive signed differences of a list of raw
readings, starting from a previous reading `prev` (the "simple sum of
unwrapped deltas" of the specification). -/
def sumDeltas (prev : Int) : List Int → Int
  | [] => 0
  | r :: rs => (r - prev) + sumDeltas r rs

/-- Every consecutive pair of the sequence `prev :: rs` differs by less than
`m / 2` in magnitude (the "no-wrap" hypothesis of the specification, for
modulus `m`). -/
def noWrapSeq (m prev : Int) : List Int → Prop
  | [] => True
  | r :: rs => |r - prev| < m / 2 ∧ noWrapSeq m r rs

instance noWrapSeq.decide (m prev : Int) (rs : List Int) :
    Decidable (noWrapSeq m prev rs) := by
  induction rs generalizing prev with
  | nil => exact .isTrue trivial
  | cons r rs ih => exact @instDecidableAnd _ _ _ (ih r)

/-- The wrap-correction step of `read`, factored out: the corrected value of
a raw difference `d` for a driver whose period attribute is `p`. -/
def wrapDelta (p d : Int) : Int :=
  if 2 * d > p then d - p
  else if 2 * d < -p then d + p
  else d

/-- Closed-form characterization of one `read` step, by unfolding the
definition. -/
theorem read_eq (s : EncoderDriver) (counter : Int) :
    s.read counter =
      ({ s with last_tick := s.new_tick
                new_tick := counter
                delta_val := wrapDelta s.period (counter - s.new_tick)
                true_position :=
                  s.true_position + wrapDelta s.period (counter - s.new_tick) },
       s.true_position + wrapDelta s.period (counter - s.new_tick)) := rfl

/-- For a nonnegative period, the wrap correction is an odd function of the
raw difference. -/
theorem wrapDelta_neg (p d : Int) (hp : 0 ≤ p) :
    wrapDelta p (-d) = -(wrapDelta p d) := by
  unfold wrapDelta
  split_ifs <;> omega

example : EncoderDriver.init.read 100 =
    ({ period := 65535, delta_val := 100, last_tick := 0, new_tick := 100,
       true_position := 100 }, 100) := by decide

/-- Claim C1 (evaluation at the failing input).  The claim requires `read` to
correct the raw delta by the counter modulus (65536 for the 16-bit counter,
whose raw values range over `[0, 65536)`): from a state whose last observed
raw value is 65530, sampling 5 should yield corrected delta
`-65525 + 65536 = 11`.  The code instead adds `self.period = 2^16 - 1 = 65535`,
yielding corrected delta 10 and a position increase of 10, one tick short of
the true displacement. -/
theorem c1_wrap_correction_uses_period_not_modulus :
    (({ EncoderDriver.init with new_tick := 65530 }).read 5).1.delta_val = 10 ∧
    (({ EncoderDriver.init with new_tick := 65530 }).read 5).1.true_position = 10 := by
  decide

/-- Claim C2 (evaluation at both failing inputs).  With the 16-bit counter
(raw values in `[0, 65536)`): from last raw 65530, `sample(5)` yields
corrected delta 10 (the claim demands 11), and from last raw 5,
`sample(65530)` yields corrected delta -10 (the claim demands -11), because
the code corrects by `self.period = 65535` instead of the modulus 65536. -/
theorem c2_overflow_underflow_examples_off_by_one :
    ((⟨65535, 0, 0, 65530, 0⟩ : EncoderDriver).read 5).1.delta_val = 10 ∧
    ((⟨65535, 0, 0, 65530, 0⟩ : EncoderDriver).read 5).1.true_position = 0 + 10 ∧
    ((⟨65535, 0, 0, 5, 0⟩ : EncoderDriver).read 65530).1.delta_val = -10 ∧
    ((⟨65535, 0, 0, 5, 0⟩ : EncoderDriver).read 65530).1.true_position = 0 - 10 := by
  decide

/-- Claim C3: `zero` sets `true_position` to 0 and changes no other state
variable; in particular, after `read 100` from the initial state (position
100), then `zero` (position 0), then `read 110`, the delta is computed from
the real previous raw reading 100, so the delta is 10 and the position
becomes 10. -/
theorem c3_zero_resets_only_true_position :
    (∀ s : EncoderDriver,
        (s.zero).true_position = 0 ∧
        (s.zero).period = s.period ∧
        (s.zero).delta_val = s.delta_val ∧
        (s.zero).last_tick = s.last_tick ∧
        (s.zero).new_tick = s.new_tick) ∧
    ((EncoderDriver.init.read 100).2 = 100 ∧
     ((EncoderDriver.init.read 100).1.zero).true_position = 0 ∧
     (((EncoderDriver.init.read 100).1.zero).read 110).1.delta_val = 10 ∧
     (((EncoderDriver.init.read 100).1.zero).read 110).2 = 10) :=
  ⟨fun s => ⟨rfl, rfl, rfl, rfl, rfl⟩, by decide⟩

/-- Claim C8: `read` and `zero` are total and never signal an error.  The
statement carries no hypothesis on `counter` at all: `read` is defined (and
characterized field by field) for every integer input, so an out-of-range
raw value is not detected or signaled, and `zero` always succeeds and equals
the plain one-field update. -/
theorem c8_read_and_zero_total (s : EncoderDriver) (counter : Int) :
    (s.read counter).1.new_tick = counter ∧
    (s.read counter).1.last_tick = s.new_tick ∧
    (s.read counter).1.period = s.period ∧
    (s.read counter).2 = (s.read counter).1.true_position ∧
    s.zero = { s with true_position := 0 } :=
  ⟨rfl, rfl, rfl, rfl, rfl⟩

/-- Claim C4 (evaluation at the boundary input).  The counter modulus is
65536 (even), so per the claim a raw delta of exactly 65536/2 = 32768
should fire neither correction branch and the position should change by
+32768.  Evaluating the code from a reachable state (period attribute
`2^16 - 1`): the strict test compares the delta 32768 against
`0.5*65535 = 32767.5` and the downward correction DOES fire, so the
corrected delta is `32768 - 65535 = -32767` and the position changes by
-32767 instead of +32768 — the boundary manifestation of the same
off-by-one as in C1 and C2. -/
theorem c4_boundary_delta_fires_correction :
    (EncoderDriver.init.read 32768).1.delta_val = -32767 ∧
    (EncoderDriver.init.read 32768).1.true_position = -32767 := by
  decide

/-- Claim C6: reading the same raw value twice in a row yields corrected
delta 0 on the second call, leaves `true_position` unchanged by the second
call, and makes the second call return the same value as the first (stated
for reachable states, whose period attribute is `2^16 - 1`, and raw values
in `[0, 2^16)`). -/
theorem c6_repeated_read_idempotent (s : EncoderDriver) (r : Int)
    (hp : s.period = 2 ^ 16 - 1) (hr0 : 0 ≤ r) (hr1 : r < 2 ^ 16) :
    (((s.read r).1).read r).1.delta_val = 0 ∧
    (((s.read r).1).read r).1.true_position = (s.read r).1.true_position ∧
    (((s.read r).1).read r).2 = (s.read r).2 := by
  have hnt : (s.read r).1.new_tick = r := rfl
  have hpp : (s.read r).1.period = s.period := rfl
  have hsnd : (s.read r).2 = (s.read r).1.true_position := rfl
  have hd : wrapDelta ((s.read r).1.period) (r - (s.read r).1.new_tick) = 0 := by
    rw [hnt, hpp, hp, sub_self]
    unfold wrapDelta
    norm_num
  refine ⟨?_, ?_, ?_⟩
  · rw [read_eq]
    dsimp only
    rw [hd]
  · rw [read_eq]
    dsimp only
    rw [hd, add_zero]
  · rw [read_eq]
    dsimp only
    rw [hd, add_zero, hsnd]

/-- Witness for C6 at the initial state and raw value 7. -/
theorem c6_repeated_read_idempotent_witness :
    (((EncoderDriver.init.read 7).1).read 7).1.delta_val = 0 ∧
    (((EncoderDriver.init.read 7).1).read 7).1.true_position
      = (EncoderDriver.init.read 7).1.true_position ∧
    (((EncoderDriver.init.read 7).1).read 7).2 = (EncoderDriver.init.read 7).2 :=
  c6_repeated_read_idempotent EncoderDriver.init 7 rfl (by decide) (by decide)

/-- Claim C7: for raw values `a` and `b` in `[0, 2^16)`, the corrected delta
of sampling `b` from a state whose last observed raw is `a` is the exact
negation of the corrected delta of sampling `a` from a state whose last
observed raw is `b` (stated for reachable states, whose period attribute is
`2^16 - 1`). -/
theorem c7_delta_antisymmetric (a b : Int) (s t : EncoderDriver)
    (ha0 : 0 ≤ a) (ha1 : a < 2 ^ 16) (hb0 : 0 ≤ b) (hb1 : b < 2 ^ 16)
    (hsa : s.new_tick = a) (htb : t.new_tick = b)
    (hsp : s.period = 2 ^ 16 - 1) (htp : t.period = 2 ^ 16 - 1) :
    (t.read a).1.delta_val = -((s.read b).1.delta_val) := by
  rw [read_eq, read_eq]
  dsimp only
  rw [hsa, htb, hsp, htp]
  rw [show a - b = -(b - a) by ring]
  exact wrapDelta_neg _ _ (by norm_num)

/-- Witness for C7 with a = 65530, b = 5 (a wrapping pair). -/
theorem c7_delta_antisymmetric_witness :
    ((⟨65535, 0, 0, 5, 0⟩ : EncoderDriver).read 65530).1.delta_val
      = -(((⟨65535, 0, 0, 65530, 0⟩ : EncoderDriver).read 5).1.delta_val) :=
  c7_delta_antisymmetric 65530 5 ⟨65535, 0, 0, 65530, 0⟩ ⟨65535, 0, 0, 5, 0⟩
    (by decide) (by decide) (by decide) (by decide) rfl rfl rfl rfl

/-- Claim C10: when the last observed raw value and the new raw value both
lie in `[0, 2^16)`, a single `read` changes `true_position` by at most 32767
in absolute value, whether or not a wrap correction fires (stated for
reachable states, whose period attribute is `2^16 - 1`). -/
theorem c10_step_bound (s : EncoderDriver) (raw : Int)
    (hp : s.period = 2 ^ 16 - 1)
    (h1 : 0 ≤ s.new_tick) (h2 : s.new_tick < 2 ^ 16)
    (h3 : 0 ≤ raw) (h4 : raw < 2 ^ 16) :
    |(s.read raw).1.true_position - s.true_position| ≤ 32767 := by
  rw [read_eq]
  dsimp only
  rw [add_sub_cancel_left, abs_le]
  unfold wrapDelta
  constructor <;> split_ifs <;> omega

/-- Witness for C10 at the initial state and the extreme raw value 65535. -/
theorem c10_step_bound_witness :
    |(EncoderDriver.init.read 65535).1.true_position
      - EncoderDriver.init.true_position| ≤ 32767 :=
  c10_step_bound EncoderDriver.init 65535 rfl
    (by decide) (by decide) (by decide) (by decide)

/-- Over a driver whose period attribute is `2^16 - 1`, a sequence of
readings in which every consecutive raw difference (starting from the
current `new_tick`) is below 32768 in magnitude fires no correction branch,
so the accumulated position advances by exactly the plain sum of the raw
differences. -/
theorem readAll_noWrap (raws : List Int) :
    ∀ s : EncoderDriver, s.period = 2 ^ 16 - 1 →
      noWrapSeq (2 ^ 16) s.new_tick raws →
      (s.readAll raws).true_position = s.true_position + sumDeltas s.new_tick raws := by
  induction raws with
  | nil =>
    intro s hp h
    simp [EncoderDriver.readAll, sumDeltas]
  | cons r rs ih =>
    intro s hp h
    obtain ⟨h1, h2⟩ := h
    rw [abs_lt] at h1
    have hnt : (s.read r).1.new_tick = r := rfl
    have hpp : (s.read r).1.period = s.period := rfl
    have htp : (s.read r).1.true_position = s.true_position + (r - s.new_tick) := by
      rw [read_eq]
      dsimp only
      unfold wrapDelta
      rw [if_neg (by omega), if_neg (by omega)]
    show ((s.read r).1.readAll rs).true_position = _
    rw [ih ((s.read r).1) (by rw [hpp, hp]) (by rw [hnt]; exact h2), htp, hnt]
    show _ = s.true_position + ((r - s.new_tick) + sumDeltas r rs)
    ring

/-- Claim C5: for every sequence of raw values in `[0, 2^16)` in which each
consecutive pair (starting from the initial reading 0) differs by less than
half the modulus `2^16`, the accumulated position after sampling the whole
sequence from the initial state equals the plain sum of the unwrapped
consecutive deltas. -/
theorem c5_no_wrap_sequence_sums_deltas (raws : List Int)
    (hrange : ∀ r ∈ raws, 0 ≤ r ∧ r < 2 ^ 16)
    (hw : noWrapSeq (2 ^ 16) 0 raws) :
    (EncoderDriver.init.readAll raws).true_position = sumDeltas 0 raws := by
  have h := readAll_noWrap raws EncoderDriver.init rfl hw
  rw [h]
  show (0 : Int) + sumDeltas 0 raws = sumDeltas 0 raws
  rw [zero_add]

/-- Witness for C5 on the sequence 10, 25, 20 (sum of deltas 20). -/
theorem c5_no_wrap_sequence_sums_deltas_witness :
    (EncoderDriver.init.readAll [10, 25, 20]).true_position
      = sumDeltas 0 [10, 25, 20] :=
  c5_no_wrap_sequence_sums_deltas [10, 25, 20]
    (by norm_num) (by decide)

/-- Claim C9: construction initializes the raw-reading bookkeeping and the
accumulated position to 0; the invariant that the last observed raw value
(`new_tick`, the value the next delta is computed against) lies in
`[0, 2^16)` holds initially, is preserved by every `read` whose raw input
lies in `[0, 2^16)`, and is preserved by `zero`. -/
theorem c9_init_and_range_invariant :
    (EncoderDriver.init.new_tick = 0 ∧ EncoderDriver.init.last_tick = 0 ∧
     EncoderDriver.init.true_position = 0 ∧ EncoderDriver.init.delta_val = 0) ∧
    (0 ≤ EncoderDriver.init.new_tick ∧ EncoderDriver.init.new_tick < 2 ^ 16) ∧
    (∀ (s : EncoderDriver) (raw : Int), 0 ≤ raw → raw < 2 ^ 16 →
        0 ≤ (s.read raw).1.new_tick ∧ (s.read raw).1.new_tick < 2 ^ 16) ∧
    (∀ s : EncoderDriver, 0 ≤ s.new_tick → s.new_tick < 2 ^ 16 →
        0 ≤ (s.zero).new_tick ∧ (s.zero).new_tick < 2 ^ 16) := by
  refine ⟨⟨rfl, rfl, rfl, rfl⟩, by decide, ?_, ?_⟩
  · intro s raw h0 h1
    exact ⟨h0, h1⟩
  · intro s h0 h1
    exact ⟨h0, h1⟩

/-- Witness for C9, preserving the invariant through `read 123` and `zero`
from the initial state. -/
theorem c9_init_and_range_invariant_witness :
    (0 ≤ (EncoderDriver.init.read 123).1.new_tick ∧
      (EncoderDriver.init.read 123).1.new_tick < 2 ^ 16) ∧
    (0 ≤ (EncoderDriver.init.zero).new_tick ∧
      (EncoderDriver.init.zero).new_tick < 2 ^ 16) :=
  ⟨c9_init_and_range_invariant.2.2.1 EncoderDriver.init 123 (by decide) (by decide),
   c9_init_and_range_invariant.2.2.2 EncoderDriver.init (by decide) (by decide)⟩
